import Mathlib

/-!
# Verification of `scripts/untar.py` (tar-of-CSV → Parquet conversion)

Shallow embedding of the streaming conversion pipeline in
`src/scripts/untar.py`:

* `tar_csv_to_parquet` (streaming branch, lines 57–81): iterates tar
  members, filters to regular files whose name ends in `.csv`, derives the
  output name from the member's base name (`Path(member.name).stem`), and
  converts each member, catching conversion errors per member.
* `convert_stream_to_parquet` (lines 126–164): reads the whole CSV stream
  into one table via `pyarrow.csv.read_csv` (block size = `batch_size`),
  then writes it with `pyarrow.parquet.write_table`
  (row group size = `batch_size`) directly at the final output path.
* `convert_csv_to_parquet` (lines 83–124): same reader/writer
  configuration for the extract-to-temp mode.

The behaviour of the pyarrow library calls (CSV type inference, row-group
chunking, the finalize/footer discipline of a Parquet writer) is not in
the repository's source; those parts are modelled from the spec and each
such definition says so in its doc comment.
-/

namespace Untar

/-! ## Column types and CSV cell parsing

Modelled from the spec: pyarrow's CSV column type inference
(`pyarrow.csv.read_csv` with `ConvertOptions(strings_can_be_null=True)`,
untar.py lines 135–150) is library code not in `src/`.  The spec (§4.2)
specifies: each column's type is inferred from the first batch only with
precedence integer < floating-point < string; empty fields are null and
do not affect the inferred type. -/

/-- The column types the pipeline distinguishes (spec §3 "Batch"). -/
inductive CType where
  | int
  | float
  | str
  | nullOnly
  deriving DecidableEq, Repr

/-- Is `c` an ASCII decimal digit? -/
def isDigitChar (c : Char) : Bool := '0' ≤ c && c ≤ '9'

/-- Digits-only, nonempty. -/
def allDigits : List Char → Bool
  | [] => false
  | cs => cs.all isDigitChar

/-- Strip one optional leading sign. -/
def stripSign : List Char → List Char
  | '+' :: cs => cs
  | '-' :: cs => cs
  | cs => cs

/-- Does the string parse as an integer: optional sign then one or more
digits? -/
def isIntString (s : String) : Bool :=
  allDigits (stripSign s.data)

/-- Mantissa of a decimal float: `digits`, `digits.digits`, `digits.`, or
`.digits`. -/
def floatMantissa (cs : List Char) : Bool :=
  match cs.splitOn '.' with
  | [whole] => allDigits whole
  | [whole, frac] =>
      (allDigits whole && (frac = [] || allDigits frac)) ||
      (whole = [] && allDigits frac)
  | _ => false

/-- Does the string parse as a decimal floating-point number: optional
sign, then a mantissa, then an optional exponent part? -/
def isFloatString (s : String) : Bool :=
  match (stripSign s.data).splitOn 'e' with
  | [m] => floatMantissa m
  | [m, ex] => floatMantissa m && allDigits (stripSign ex)
  | _ => false

/-- Modelled from the spec: pyarrow column type inference over the values
of one column of the first batch.  Empty fields are treated as null and
ignored; otherwise precedence integer < floating-point < string
(spec §4.2). -/
def inferType (vals : List String) : CType :=
  let nonNull := vals.filter (fun v => v ≠ "")
  if nonNull = [] then CType.nullOnly
  else if nonNull.all isIntString then CType.int
  else if nonNull.all isFloatString then CType.float
  else CType.str

/-- Modelled from the spec: can the raw cell `s` be converted to a column
of fixed type `t`?  Empty cells are null and accepted everywhere
(`strings_can_be_null=True`); a value that fails to coerce is a schema
violation (spec §4.2 consistency rule). -/
def castsTo (s : String) (t : CType) : Bool :=
  s = "" ||
    match t with
    | CType.int => isIntString s
    | CType.float => isFloatString s
    | CType.str => true
    | CType.nullOnly => false

/-! ## CSV content, tables and the Parquet writer model -/

/-- One parsed CSV record: the raw cell strings of one data row. -/
abbrev Row := List String

/-- The CSV content of one member stream, as the reader sees it: a header
row followed by the data rows grouped into the consecutive `block_size`
parse windows that `pyarrow.csv.read_csv` cuts the byte stream into
(untar.py lines 135–150). -/
structure CsvContent where
  header : List String
  blocks : List (List Row)
  deriving DecidableEq, Repr

/-- An in-memory table: the fixed schema plus every data row of the
member (what `pyarrow.csv.read_csv` returns). -/
structure Table where
  schema : List (String × CType)
  rows : List Row
  deriving DecidableEq, Repr

/-- Split a list into consecutive chunks of size `n` (`n = 0` yields the
whole list as one chunk), via a fuel argument for termination. -/
def chunkListAux {α : Type} : Nat → Nat → List α → List (List α)
  | _, _, [] => []
  | 0, _, a :: l => [a :: l]
  | fuel + 1, n, a :: l =>
      if n = 0 then [a :: l]
      else (a :: l).take n :: chunkListAux fuel n ((a :: l).drop n)

/-- Split a list into consecutive chunks of size `n`. -/
def chunkList {α : Type} (n : Nat) (l : List α) : List (List α) :=
  chunkListAux l.length n l

/-- The values of column `i` across the given rows (missing cells read as
empty, i.e. null). -/
def columnVals (rows : List Row) (i : Nat) : List String :=
  rows.map (fun r => r.getD i "")

/-- Modelled from the spec: the schema pyarrow fixes for a member — each
header name paired with the type inferred from that column's values in
the *first* block only (spec §4.2; library code not in `src/`). -/
def inferSchema (header : List String) (firstBlock : List Row) :
    List (String × CType) :=
  (List.range header.length).map
    (fun i => (header.getD i "", inferType (columnVals firstBlock i)))

/-- Does row `r` conform to the fixed schema: right number of fields and
every cell coercible to its column's type? -/
def rowOk (schema : List (String × CType)) (r : Row) : Bool :=
  r.length = schema.length &&
    (r.zip schema).all (fun p => castsTo p.1 p.2.2)

/-- Modelled from the spec: `pyarrow.csv.read_csv` on a member stream.
Fixes the schema from the first block, then parses *every* row against
it, materialising the whole member as one `Table`; a row that does not
conform raises (`SchemaViolationError` / parse error), modelled as
`Except.error` (spec §4.2; untar.py lines 145–150). -/
def read_csv (content : CsvContent) : Except String Table :=
  let schema := inferSchema content.header (content.blocks.headD [])
  let allRows := content.blocks.flatten
  if allRows.all (rowOk schema) then
    Except.ok { schema := schema, rows := allRows }
  else
    Except.error "SchemaViolationError"

/-- The committed columnar artifact: schema, row groups, and whether the
finalize step (footer) completed.  A Parquet file is unreadable until
finalized (spec §4.3). -/
structure ParquetFile where
  schema : List (String × CType)
  groups : List (List Row)
  finalized : Bool
  deriving DecidableEq, Repr

/-- Modelled from the spec: `pyarrow.parquet.write_table` splits the
table's rows into row groups of `row_group_size` rows and finalizes the
file (spec §4.3; untar.py lines 153–160). -/
def write_table (row_group_size : Nat) (t : Table) : ParquetFile :=
  { schema := t.schema
    groups := chunkList row_group_size t.rows
    finalized := true }

/-- Readers accept only a finalized file; before the finalize step the
artifact is invalid/unreadable (spec §4.3). -/
def readParquet (f : ParquetFile) : Option (List Row) :=
  if f.finalized then some f.groups.flatten else none

/-- Number of rows of the committed file (`table.num_rows` in the success
report, untar.py line 163). -/
def ParquetFile.numRows (f : ParquetFile) : Nat :=
  f.groups.flatten.length

/-- Number of columns (`table.num_columns`, untar.py line 163). -/
def ParquetFile.numCols (f : ParquetFile) : Nat :=
  f.schema.length

/-- Byte size of the committed file as reported by `os.path.getsize`
(untar.py line 164); modelled as the total number of characters stored. -/
def ParquetFile.byteSize (f : ParquetFile) : Nat :=
  (f.groups.flatten.map (fun r => (r.map String.length).sum)).sum

/-! ## Archive members and the orchestrator (`tar_csv_to_parquet`,
streaming branch, untar.py lines 57–81) -/

/-- What `tar.extractfile(member)` does for a given member: raise an
exception, return `None`, or return a readable stream whose CSV content
is `content`. -/
inductive ExtractResult where
  | raises (e : String)
  | noStream
  | stream (content : CsvContent)
  deriving DecidableEq, Repr

/-- A tar archive member as the loop sees it: `member.name`,
`member.isfile()`, and the behaviour of `tar.extractfile(member)`. -/
structure Member where
  name : String
  isfile : Bool
  extract : ExtractResult
  deriving DecidableEq, Repr

/-- Python's `s.endswith(t)`: case-sensitive suffix comparison. -/
def strEndsWith (s t : String) : Bool :=
  decide (t.data.length ≤ s.data.length) &&
    decide (s.data.drop (s.data.length - t.data.length) = t.data)

/-- The eligibility filter of untar.py line 61:
`member.name.endswith('.csv') and member.isfile()`. -/
def isEligible (m : Member) : Bool :=
  strEndsWith m.name ".csv" && m.isfile

/-- The final path component of a slash-separated path
(`Path(p).name`). -/
def pathBaseName (p : String) : List Char :=
  (p.data.splitOn '/').getLastD p.data

/-- `Path(p).stem` (untar.py line 67): the base name without its final
extension; a name whose only dot is the leading one keeps it. -/
def pathStem (p : String) : String :=
  let b := pathBaseName p
  match b.splitOn '.' with
  | [] => String.mk b
  | [_] => String.mk b
  | [[], _] => String.mk b
  | parts => String.mk (List.intercalate ['.'] parts.dropLast)

/-- Run configuration: output directory, compression and `batch_size`
(untar.py lines 9–16). -/
structure Config where
  output_dir : String
  compression : String
  batch_size : Nat
  deriving DecidableEq, Repr

/-- The deterministic output path of untar.py lines 67–68:
`os.path.join(output_dir, f"\x7bbase_name\x7d.parquet")` with
`base_name = Path(member.name).stem`. -/
def outputPath (cfg : Config) (m : Member) : String :=
  cfg.output_dir ++ "/" ++ pathStem m.name ++ ".parquet"

/-- `convert_stream_to_parquet` (untar.py lines 126–160): read the whole
stream into one table, then write it as a Parquet file at the output
path.  Any error while reading or writing propagates as `Except.error`. -/
def convert_stream_to_parquet (cfg : Config) (content : CsvContent) :
    Except String ParquetFile :=
  (read_csv content).map (write_table cfg.batch_size)

/-- One per-member record of the run's observable output: the success
report printed on lines 162–164 (output path, row count, column count,
byte size) or the error report printed on line 80 (member name and error
text). -/
inductive Outcome where
  | success (path : String) (rows cols size : Nat)
  | failure (member : String) (error : String)
  deriving DecidableEq, Repr

/-- The filesystem seen by the run: the Parquet file stored under each
path, if any. -/
def Fs := String → Option ParquetFile

/-- Overwrite the file at path `k`. -/
def Fs.write (fs : Fs) (k : String) (v : ParquetFile) : Fs :=
  fun p => if p = k then some v else fs p

/-- The empty output directory. -/
def Fs.empty : Fs := fun _ => none

/-- Mutable state threaded through the member loop: the output directory
contents and the ordered per-member reports. -/
structure RunState where
  fs : Fs
  log : List Outcome

/-- The body of the member loop (untar.py lines 60–81): skip ineligible
members; call `tar.extractfile` *outside* the `try` block (line 64), so
an exception there propagates out of the run; skip members with no
stream (line 66); otherwise convert inside `try`, recording a success or
— on any exception — an error report, and continue. -/
def processMember (cfg : Config) (st : RunState) (m : Member) :
    Except String RunState :=
  if isEligible m then
    match m.extract with
    | ExtractResult.raises e => Except.error e
    | ExtractResult.noStream => Except.ok st
    | ExtractResult.stream content =>
        match convert_stream_to_parquet cfg content with
        | Except.ok f =>
            Except.ok
              { fs := st.fs.write (outputPath cfg m) f
                log := st.log ++
                  [Outcome.success (outputPath cfg m) f.numRows f.numCols
                    f.byteSize] }
        | Except.error e =>
            Except.ok { st with log := st.log ++ [Outcome.failure m.name e] }
  else Except.ok st

/-- The member loop from a given state. -/
def runFrom (cfg : Config) (st : RunState) : List Member →
    Except String RunState
  | [] => Except.ok st
  | m :: ms =>
      match processMember cfg st m with
      | Except.error e => Except.error e
      | Except.ok st' => runFrom cfg st' ms

/-- `tar_csv_to_parquet` in streaming mode (untar.py lines 57–81): loop
over the archive's members in order, starting from an empty output
directory.  An uncaught exception aborts the whole run
(`Except.error`). -/
def tar_csv_to_parquet (cfg : Config) (members : List Member) :
    Except String RunState :=
  runFrom cfg { fs := Fs.empty, log := [] } members

/-- The ordered per-member reports of a completed run. -/
def runLog (cfg : Config) (members : List Member) :
    Except String (List Outcome) :=
  (tar_csv_to_parquet cfg members).map RunState.log

/-- The output directory contents of a completed run. -/
def runFs (cfg : Config) (members : List Member) : Except String Fs :=
  (tar_csv_to_parquet cfg members).map RunState.fs

/-- The report (if any) that processing member `m` alone contributes to
the run log: nothing for an ineligible member or one without a stream; a
success or failure report otherwise. -/
def outcomeOf (cfg : Config) (m : Member) : Option Outcome :=
  if isEligible m then
    match m.extract with
    | ExtractResult.raises _ => none
    | ExtractResult.noStream => none
    | ExtractResult.stream content =>
        match convert_stream_to_parquet cfg content with
        | Except.ok f =>
            some (Outcome.success (outputPath cfg m) f.numRows f.numCols
              f.byteSize)
        | Except.error e => some (Outcome.failure m.name e)
  else none

/-- The committed write (path, file) that member `m` alone contributes to
the output directory, if its conversion succeeds. -/
def writeOf (cfg : Config) (m : Member) : Option (String × ParquetFile) :=
  if isEligible m then
    match m.extract with
    | ExtractResult.raises _ => none
    | ExtractResult.noStream => none
    | ExtractResult.stream content =>
        match convert_stream_to_parquet cfg content with
        | Except.ok f => some (outputPath cfg m, f)
        | Except.error _ => none
  else none

/-- Does `tar.extractfile(member)` return (rather than raise)? -/
def opensWithoutRaising (m : Member) : Bool :=
  match m.extract with
  | ExtractResult.raises _ => false
  | _ => true

/-- Apply a list of (path, file) writes to a filesystem in order. -/
def applyWrites (ws : List (String × ParquetFile)) (fs : Fs) : Fs :=
  ws.foldl (fun f w => f.write w.1 w.2) fs

/-- The value left at `p` by a list of writes: the last write to `p`, if
any. -/
def lastWrite (ws : List (String × ParquetFile)) (p : String) :
    Option ParquetFile :=
  ws.foldl (fun acc w => if w.1 = p then some w.2 else acc) none

/-! ## Auxiliary lemmas -/

theorem chunkListAux_flatten {α : Type} (fuel : Nat) :
    ∀ (n : Nat) (l : List α), l.length ≤ fuel →
      (chunkListAux fuel n l).flatten = l := by
  induction fuel with
  | zero =>
      intro n l hl
      have : l = [] := List.eq_nil_of_length_eq_zero (Nat.le_zero.mp hl)
      subst this
      rfl
  | succ fuel ih =>
      intro n l hl
      match l with
      | [] => rfl
      | a :: l =>
          by_cases hn : n = 0
          · simp [chunkListAux, hn]
          · have hlen : ((a :: l).drop n).length ≤ fuel := by
              simp only [List.length_drop]
              have := Nat.one_le_iff_ne_zero.mpr hn
              simp only [List.length_cons] at hl ⊢
              omega
            simp only [chunkListAux, hn, if_false, List.flatten_cons,
              ih n _ hlen]
            exact List.take_append_drop n (a :: l)

theorem chunkList_flatten {α : Type} (n : Nat) (l : List α) :
    (chunkList n l).flatten = l :=
  chunkListAux_flatten l.length n l (Nat.le_refl _)

theorem chunkList_sum_lengths {α : Type} (n : Nat) (l : List α) :
    ((chunkList n l).map List.length).sum = l.length := by
  rw [← List.length_flatten, chunkList_flatten]

/-- A member whose extraction yields no stream leaves the state
untouched (untar.py line 66: `if csv_file:`). -/
theorem processMember_noStream (cfg : Config) (st : RunState) (m : Member)
    (h : m.extract = ExtractResult.noStream) :
    processMember cfg st m = Except.ok st := by
  unfold processMember
  by_cases he : isEligible m
  · simp [he, h]
  · simp [he]

/-- An ineligible member leaves the state untouched (untar.py line 61). -/
theorem processMember_ineligible (cfg : Config) (st : RunState) (m : Member)
    (h : isEligible m = false) :
    processMember cfg st m = Except.ok st := by
  unfold processMember
  simp [h]

/-- Splitting the member loop at an arbitrary point. -/
theorem runFrom_append (cfg : Config) (st : RunState) (ms₁ ms₂ : List Member) :
    runFrom cfg st (ms₁ ++ ms₂) =
      match runFrom cfg st ms₁ with
      | Except.ok st' => runFrom cfg st' ms₂
      | Except.error e => Except.error e := by
  induction ms₁ generalizing st with
  | nil => simp [runFrom]
  | cons m ms ih =>
      simp only [List.cons_append, runFrom]
      cases processMember cfg st m with
      | error e => rfl
      | ok st' => exact ih st'

/-- Characterisation of a run in which no member's extraction raises:
the loop completes, each member contributes its own report (if any) in
archive order, and the output directory is the in-order application of
each member's own committed write. -/
theorem runFrom_ok (cfg : Config) (ms : List Member) :
    ∀ st : RunState, ms.all opensWithoutRaising = true →
      runFrom cfg st ms =
        Except.ok
          { fs := applyWrites (ms.filterMap (writeOf cfg)) st.fs
            log := st.log ++ ms.filterMap (outcomeOf cfg) } := by
  induction ms with
  | nil => intro st _; simp [runFrom, applyWrites]
  | cons m ms ih =>
      intro st hall
      simp only [List.all_cons, Bool.and_eq_true] at hall
      obtain ⟨hm, hms⟩ := hall
      simp only [runFrom, List.filterMap_cons]
      by_cases he : isEligible m
      · cases hx : m.extract with
        | raises e => simp [opensWithoutRaising, hx] at hm
        | noStream =>
            rw [processMember_noStream cfg st m hx]
            simp only [writeOf, outcomeOf, he, if_true, hx]
            exact ih st hms
        | stream content =>
            simp only [processMember, he, if_true, hx]
            cases hc : convert_stream_to_parquet cfg content with
            | ok f =>
                simp only [writeOf, outcomeOf, he, if_true, hx, hc]
                rw [ih _ hms]
                simp [applyWrites]
            | error e =>
                simp only [writeOf, outcomeOf, he, if_true, hx, hc]
                rw [ih _ hms]
                simp [applyWrites]
      · rw [processMember_ineligible cfg st m (Bool.eq_false_iff.mpr he)]
        simp only [writeOf, outcomeOf, he, if_false]
        exact ih st hms

/-- The completed-run log: one report per member, in archive order. -/
theorem runLog_eq (cfg : Config) (ms : List Member)
    (h : ms.all opensWithoutRaising = true) :
    runLog cfg ms = Except.ok (ms.filterMap (outcomeOf cfg)) := by
  unfold runLog tar_csv_to_parquet
  rw [runFrom_ok cfg ms _ h]
  rfl

/-- The completed-run output directory: the in-order application of the
members' committed writes to an empty directory. -/
theorem runFs_eq (cfg : Config) (ms : List Member)
    (h : ms.all opensWithoutRaising = true) :
    runFs cfg ms =
      Except.ok (applyWrites (ms.filterMap (writeOf cfg)) Fs.empty) := by
  unfold runFs tar_csv_to_parquet
  rw [runFrom_ok cfg ms _ h]
  rfl

/-- Folding the last-write accumulator from an arbitrary seed. -/
theorem lastWrite_foldl (p : String) (ws : List (String × ParquetFile)) :
    ∀ acc : Option ParquetFile,
      ws.foldl (fun a w => if w.1 = p then some w.2 else a) acc =
        match lastWrite ws p with
        | some v => some v
        | none => acc := by
  induction ws with
  | nil => intro acc; rfl
  | cons w ws ih =>
      intro acc
      simp only [lastWrite, List.foldl_cons]
      rw [ih, ih (if w.1 = p then some w.2 else none)]
      cases lastWrite ws p with
      | some v => rfl
      | none =>
          by_cases hw : w.1 = p <;> simp [hw]

/-- A sequence of writes leaves at each path the last write to it — the
later writer wins. -/
theorem applyWrites_lookup (ws : List (String × ParquetFile)) (fs : Fs)
    (p : String) :
    applyWrites ws fs p =
      match lastWrite ws p with
      | some v => some v
      | none => fs p := by
  induction ws generalizing fs with
  | nil => rfl
  | cons w ws ih =>
      have hstep : applyWrites (w :: ws) fs = applyWrites ws (fs.write w.1 w.2) := by
        simp [applyWrites]
      have h2 : lastWrite (w :: ws) p =
          match lastWrite ws p with
          | some v => some v
          | none => if w.1 = p then some w.2 else none := by
        simp only [lastWrite, List.foldl_cons]
        exact lastWrite_foldl p ws _
      rw [hstep, ih (fs.write w.1 w.2), h2]
      cases lastWrite ws p with
      | some v => rfl
      | none =>
          by_cases hw : w.1 = p
          · simp [hw, Fs.write]
          · have hpw : ¬(p = w.1) := fun h => hw h.symm
            simp [hw, Fs.write, hpw]

/-! ## Concrete fixtures used by witnesses and counterexamples -/

/-- A small run configuration: output directory `out`, snappy
compression, `batch_size = 2`. -/
def cfg₀ : Config := { output_dir := "out", compression := "snappy", batch_size := 2 }

/-- Two rows over columns `a` (integer) and `b` (floating-point). -/
def contentA : CsvContent := { header := ["a", "b"], blocks := [[["1", "2.5"], ["2", "3"]]] }

/-- First block infers integer for column `a`; the second block holds the
non-numeric value `x`, violating the inferred schema. -/
def contentBad : CsvContent := { header := ["a"], blocks := [[["1"], ["2"]], [["x"]]] }

/-- One integer row. -/
def contentC : CsvContent := { header := ["c"], blocks := [[["7"]]] }

/-- Member #1 of the three-member scenario: converts cleanly. -/
def memberA : Member := { name := "dir/a.csv", isfile := true, extract := ExtractResult.stream contentA }

/-- Member #2 of the three-member scenario: schema violation in its
second block. -/
def memberBad : Member := { name := "b.csv", isfile := true, extract := ExtractResult.stream contentBad }

/-- Member #3 of the three-member scenario: converts cleanly. -/
def memberC : Member := { name := "c.csv", isfile := true, extract := ExtractResult.stream contentC }

/-- An ineligible member (wrong suffix). -/
def readmeMember : Member := { name := "readme.txt", isfile := true, extract := ExtractResult.noStream }

/-- An eligible member in a nested directory. -/
def janMember : Member := { name := "data/2020/jan.csv", isfile := true, extract := ExtractResult.stream contentA }

/-- An eligible member whose `tar.extractfile` raises. -/
def raiseMember : Member := { name := "r.csv", isfile := true, extract := ExtractResult.raises "ReadError" }

/-- An eligible member whose `tar.extractfile` returns `None`. -/
def noneMember : Member := { name := "x.csv", isfile := true, extract := ExtractResult.noStream }

/-- A member whose suffix matches only case-insensitively. -/
def upperMember : Member := { name := "DATA.CSV", isfile := true, extract := ExtractResult.noStream }

/-- A `.csv`-named member that is not a regular file (e.g. a directory
or link). -/
def nonRegularMember : Member := { name := "dir/jan.csv", isfile := false, extract := ExtractResult.noStream }

/-! ## C1 — failure isolation -/

/-- C1: for every archive in streaming mode (whose member opens return),
an error raised while converting one eligible member is caught at the
orchestrator boundary and recorded as a failure for that member only:
the run completes and the members before and after it contribute exactly
the reports they would contribute anyway. -/
theorem C1_failure_isolation (cfg : Config) (pre post : List Member)
    (m : Member) (content : CsvContent) (e : String)
    (hall : (pre ++ m :: post).all opensWithoutRaising = true)
    (helig : isEligible m = true)
    (hstream : m.extract = ExtractResult.stream content)
    (herr : convert_stream_to_parquet cfg content = Except.error e) :
    runLog cfg (pre ++ m :: post) =
      Except.ok (pre.filterMap (outcomeOf cfg) ++
        Outcome.failure m.name e :: post.filterMap (outcomeOf cfg)) := by
  rw [runLog_eq cfg _ hall, List.filterMap_append]
  have hm : outcomeOf cfg m = some (Outcome.failure m.name e) := by
    simp [outcomeOf, helig, hstream, herr]
  simp [List.filterMap_cons, hm]

/-- C1 witness: the three-member archive where only member #2 violates
its inferred schema; members #1 and #3 still convert successfully. -/
theorem C1_witness :
    runLog cfg₀ [memberA, memberBad, memberC] =
      Except.ok
        [Outcome.success "out/a.parquet" 2 2 6,
          Outcome.failure "b.csv" "SchemaViolationError",
          Outcome.success "out/c.parquet" 1 1 1] := by
  have h := C1_failure_isolation cfg₀ [memberA] [memberC] memberBad contentBad
    "SchemaViolationError" (by decide) (by decide) rfl rfl
  exact h.trans (by rfl)

/-! ## C3 — run summary -/

/-- C3 counterexample: an archive whose single member is ineligible
produces an *empty* report list — not one outcome per member marking it
skipped — and `tar_csv_to_parquet` itself returns no outcome list
(`None` in Python); its observable output is only the printed log. -/
theorem C3_counterexample :
    runLog cfg₀ [readmeMember] = Except.ok [] ∧
    [readmeMember].length = 1 := ⟨rfl, rfl⟩

/-- C3 (amended): for every archive whose member opens return, the run's
observable result — the printed log — is an ordered list with exactly one
report per eligible member that yielded a stream, in archive order:
success reports carry the output path, row count, column count and byte
size, failure reports carry the member name and error detail; ineligible
members are skipped silently with no report. -/
theorem C3_run_summary (cfg : Config) (ms : List Member)
    (hall : ms.all opensWithoutRaising = true) :
    runLog cfg ms = Except.ok (ms.filterMap (outcomeOf cfg)) ∧
    (∀ m : Member, ∀ content : CsvContent, isEligible m = true →
      m.extract = ExtractResult.stream content →
      outcomeOf cfg m =
        (match convert_stream_to_parquet cfg content with
          | Except.ok f =>
              some (Outcome.success (outputPath cfg m) f.numRows f.numCols
                f.byteSize)
          | Except.error e => some (Outcome.failure m.name e))) ∧
    (∀ m : Member, isEligible m = false → outcomeOf cfg m = none) := by
  refine ⟨runLog_eq cfg ms hall, ?_, ?_⟩
  · intro m content helig hstream
    simp [outcomeOf, helig, hstream]
  · intro m helig
    simp [outcomeOf, helig]

/-- C3 witness: a mixed archive — success, skipped (ineligible), failure —
reported in archive order with the ineligible member contributing
nothing. -/
theorem C3_witness :
    runLog cfg₀ [memberA, readmeMember, memberBad] =
      Except.ok
        [Outcome.success "out/a.parquet" 2 2 6,
          Outcome.failure "b.csv" "SchemaViolationError"] := by
  have h := (C3_run_summary cfg₀ [memberA, readmeMember, memberBad]
    (by decide)).1
  exact h.trans (by rfl)

/-! ## C4 — member-open failure -/

/-- C4 counterexample: `tar.extractfile` (untar.py line 64) sits outside
the `try` block, so a member whose open raises aborts the whole run: with
archive `[raiseMember, memberC]` the run ends in the uncaught exception
and member #2 — which on its own would convert successfully — is never
processed. -/
theorem C4_counterexample :
    runLog cfg₀ [raiseMember, memberC] = Except.error "ReadError" ∧
    outcomeOf cfg₀ memberC = some (Outcome.success "out/c.parquet" 1 1 1) :=
  ⟨rfl, rfl⟩

/-- C4 (amended): an exception raised while opening an individual member
for streaming aborts the whole run (the open call is outside the
per-member `try`), leaving the remaining members unprocessed; an open
that returns no stream (`None`) skips that member only and the run
continues. -/
theorem C4_open_exception_aborts_run (cfg : Config) (pre post : List Member)
    (m : Member) (e : String)
    (hpre : pre.all opensWithoutRaising = true)
    (helig : isEligible m = true)
    (hraise : m.extract = ExtractResult.raises e) :
    tar_csv_to_parquet cfg (pre ++ m :: post) = Except.error e ∧
    (∀ m' : Member, m'.extract = ExtractResult.noStream →
      ∀ pre' post' : List Member,
        tar_csv_to_parquet cfg (pre' ++ m' :: post') =
          tar_csv_to_parquet cfg (pre' ++ post')) := by
  constructor
  · unfold tar_csv_to_parquet
    rw [runFrom_append, runFrom_ok cfg pre _ hpre]
    simp only [runFrom, processMember, helig, if_true, hraise]
  · intro m' hns pre' post'
    unfold tar_csv_to_parquet
    rw [runFrom_append, runFrom_append]
    cases runFrom cfg { fs := Fs.empty, log := [] } pre' with
    | error e' => rfl
    | ok st' =>
        show runFrom cfg st' (m' :: post') = runFrom cfg st' post'
        simp only [runFrom, processMember_noStream cfg st' m' hns]

/-- C4 witness: a concrete archive whose second member's open raises;
the run aborts with that exception, and a concrete `None`-stream member
whose removal leaves the run unchanged. -/
theorem C4_witness :
    tar_csv_to_parquet cfg₀ ([memberA] ++ raiseMember :: [memberC]) =
      Except.error "ReadError" ∧
    tar_csv_to_parquet cfg₀ ([memberA] ++ noneMember :: [memberC]) =
      tar_csv_to_parquet cfg₀ ([memberA] ++ [memberC]) := by
  have h := C4_open_exception_aborts_run cfg₀ [memberA] [memberC] raiseMember
    "ReadError" (by decide) (by decide) rfl
  exact ⟨h.1, h.2 noneMember rfl [memberA] [memberC]⟩

/-! ## C8 — eligibility filtering -/

/-- C8: a member is processed iff it is a regular file whose name ends in
`.csv`, compared case-sensitively: an ineligible member changes nothing
about the run's reports, an eligible member with a stream always
contributes a report, `readme.txt` and `DATA.CSV` and non-regular files
are skipped, and `data/2020/jan.csv` is eligible. -/
theorem C8_eligibility (cfg : Config) (pre post : List Member) (m : Member) :
    (isEligible m = false →
      runLog cfg (pre ++ m :: post) = runLog cfg (pre ++ post)) ∧
    (∀ content : CsvContent, isEligible m = true →
      m.extract = ExtractResult.stream content →
      (outcomeOf cfg m).isSome = true) ∧
    isEligible readmeMember = false ∧
    isEligible janMember = true ∧
    isEligible upperMember = false ∧
    isEligible nonRegularMember = false := by
  refine ⟨?_, ?_, by decide, by decide, by decide, by decide⟩
  · intro helig
    unfold runLog tar_csv_to_parquet
    rw [runFrom_append, runFrom_append]
    cases runFrom cfg { fs := Fs.empty, log := [] } pre with
    | error e => rfl
    | ok st' =>
        show (runFrom cfg st' (m :: post)).map RunState.log =
          (runFrom cfg st' post).map RunState.log
        simp only [runFrom, processMember_ineligible cfg st' m helig]
  · intro content helig hstream
    simp only [outcomeOf, helig, if_true, hstream]
    cases convert_stream_to_parquet cfg content <;> rfl

/-- C8 witness: dropping the ineligible `readme.txt` member leaves the
run log unchanged, and the eligible `data/2020/jan.csv` member
contributes a report. -/
theorem C8_witness :
    runLog cfg₀ ([janMember] ++ readmeMember :: []) =
      runLog cfg₀ ([janMember] ++ []) ∧
    (outcomeOf cfg₀ janMember).isSome = true := by
  refine ⟨(C8_eligibility cfg₀ [janMember] [] readmeMember).1 (by decide), ?_⟩
  exact (C8_eligibility cfg₀ [] [] janMember).2.1 contentA (by decide) rfl

/-! ## C9 — deterministic naming, last-writer-wins -/

/-- Colliding member with base name `x.csv` in directory `a`. -/
def memberAX : Member := { name := "a/x.csv", isfile := true, extract := ExtractResult.stream contentA }

/-- Colliding member with base name `x.csv` in directory `b`, different
content. -/
def memberBX : Member := { name := "b/x.csv", isfile := true, extract := ExtractResult.stream contentC }

/-- C9: the output name is derived deterministically from the member's
base name alone (two members with the same base name get the same output
path, the directory part being discarded); every committed write of the
run targets its member's derived path; and the completed run leaves at
each path exactly the *last* write to it, so on a collision the later
member's output overwrites the earlier one's. -/
theorem C9_naming_last_writer_wins (cfg : Config) (ms : List Member)
    (hall : ms.all opensWithoutRaising = true) :
    (∀ m₁ m₂ : Member, pathBaseName m₁.name = pathBaseName m₂.name →
      outputPath cfg m₁ = outputPath cfg m₂) ∧
    (∀ (m : Member) (pf : String × ParquetFile), writeOf cfg m = some pf →
      pf.1 = outputPath cfg m) ∧
    runFs cfg ms =
      Except.ok (fun p => lastWrite (ms.filterMap (writeOf cfg)) p) := by
  refine ⟨?_, ?_, ?_⟩
  · intro m₁ m₂ h
    unfold outputPath pathStem
    rw [h]
  · intro m pf h
    unfold writeOf at h
    by_cases he : isEligible m
    · simp only [he, if_true] at h
      cases hx : m.extract with
      | raises e => rw [hx] at h; cases h
      | noStream => rw [hx] at h; cases h
      | stream content =>
          cases hc : convert_stream_to_parquet cfg content with
          | ok f => simp only [hx, hc] at h; cases h; rfl
          | error e => simp only [hx, hc] at h; cases h
    · simp [he] at h
  · rw [runFs_eq cfg ms hall]
    congr 1
    funext p
    rw [applyWrites_lookup]
    cases lastWrite (ms.filterMap (writeOf cfg)) p <;> rfl

/-- C9 witness: `a/x.csv` and `b/x.csv` both map to `out/x.parquet`, and
after the run that path holds the *second* member's converted file. -/
theorem C9_witness :
    outputPath cfg₀ memberAX = outputPath cfg₀ memberBX ∧
    runFs cfg₀ [memberAX, memberBX] =
      Except.ok (fun p => lastWrite ([memberAX, memberBX].filterMap (writeOf cfg₀)) p) ∧
    lastWrite ([memberAX, memberBX].filterMap (writeOf cfg₀)) "out/x.parquet" =
      some { schema := [("c", CType.int)], groups := [[["7"]]], finalized := true } := by
  have h := C9_naming_last_writer_wins cfg₀ [memberAX, memberBX] (by decide)
  exact ⟨h.1 memberAX memberBX rfl, h.2.2, rfl⟩

/-! ## C2 — atomic commit of output files -/

/-- Modelled from the spec: the number of filesystem operations the
Parquet writer performs at the output path — create the file, append each
row-group segment, then the single finalize (footer) step (spec §4.3;
the writer itself is pyarrow library code not in `src/`). -/
def writeOps (rgs : Nat) (t : Table) : Nat :=
  (chunkList rgs t.rows).length + 2

/-- Modelled from the spec: the artifact visible at the output path once
the first `k ≥ 1` of those operations have executed: the row groups
appended so far, finalized only by the last operation. -/
def writeTableAt (rgs : Nat) (t : Table) (k : Nat) : ParquetFile :=
  { schema := t.schema
    groups := (chunkList rgs t.rows).take (k - 1)
    finalized := decide (writeOps rgs t ≤ k) }

/-- The filesystem after the writer, invoked directly on the *final*
output path as in untar.py line 155 (`pq.write_table(table,
parquet_path, ...)` — no temporary path, no rename), is interrupted
after its first `k` operations. -/
def crashWrite (rgs : Nat) (t : Table) (path : String) (fs : Fs)
    (k : Nat) : Fs :=
  if k = 0 then fs
  else fs.write path (writeTableAt rgs t (min k (writeOps rgs t)))

/-- C2: finalize is the single atomic commit point.  Starting from a
fresh output path, a crash at any point strictly before the finalize
operation leaves either no file at the member's output name or a file
that is clearly marked incomplete — its finalize footer is absent, so a
reader rejects it (`readParquet` = none); it is never readable as if
complete.  Only the full operation sequence commits the file, and the
committed file contains exactly the table's rows. -/
theorem C2_atomic_finalize (rgs : Nat) (t : Table) (path : String)
    (fs : Fs) (k : Nat) (hfresh : fs path = none)
    (hk : k < writeOps rgs t) :
    (crashWrite rgs t path fs k path = none ∨
      ∃ f : ParquetFile, crashWrite rgs t path fs k path = some f ∧
        f.finalized = false ∧ readParquet f = none) ∧
    crashWrite rgs t path fs (writeOps rgs t) path =
      some (write_table rgs t) ∧
    readParquet (write_table rgs t) = some t.rows := by
  refine ⟨?_, ?_, ?_⟩
  · by_cases hk0 : k = 0
    · left
      simp [crashWrite, hk0, hfresh]
    · right
      refine ⟨writeTableAt rgs t (min k (writeOps rgs t)), ?_, ?_, ?_⟩
      · simp [crashWrite, hk0, Fs.write]
      · have hmin : min k (writeOps rgs t) = k := Nat.min_eq_left (Nat.le_of_lt hk)
        simp [writeTableAt, hmin, Nat.not_le_of_lt hk]
      · have hmin : min k (writeOps rgs t) = k := Nat.min_eq_left (Nat.le_of_lt hk)
        simp [readParquet, writeTableAt, hmin, Nat.not_le_of_lt hk]
  · have hops : writeOps rgs t ≠ 0 := by
      unfold writeOps
      omega
    have htake : (chunkList rgs t.rows).take (writeOps rgs t - 1) =
        chunkList rgs t.rows := by
      apply List.take_of_length_le
      unfold writeOps
      omega
    simp [crashWrite, hops, Fs.write, writeTableAt, htake, write_table]
  · simp [readParquet, write_table, chunkList_flatten]

/-- A three-row table used to exercise the crash model. -/
def tableD : Table := { schema := [("a", CType.int)], rows := [["1"], ["2"], ["3"]] }

/-- C2 witness: with row groups of 2 the writer performs 4 operations on
`tableD`; interrupting after 2 of them (one row group appended) leaves
an unreadable, unfinalized artifact, while the full sequence commits a
readable file holding all three rows. -/
theorem C2_witness :
    (crashWrite 2 tableD "out/x.parquet" Fs.empty 2 "out/x.parquet" = none ∨
      ∃ f : ParquetFile,
        crashWrite 2 tableD "out/x.parquet" Fs.empty 2 "out/x.parquet" = some f ∧
        f.finalized = false ∧ readParquet f = none) ∧
    crashWrite 2 tableD "out/x.parquet" Fs.empty (writeOps 2 tableD)
        "out/x.parquet" = some (write_table 2 tableD) ∧
    readParquet (write_table 2 tableD) = some tableD.rows :=
  C2_atomic_finalize 2 tableD "out/x.parquet" Fs.empty 2 rfl (by decide)

/-! ## C5 — memory residency of a member -/

/-- The number of rows `csv.read_csv` holds in memory at once before the
writer is invoked: untar.py lines 145–160 bind `table = csv.read_csv(...)`
— the *whole* member — and only then call `pq.write_table(table, ...)`. -/
def materializedRows (content : CsvContent) : Nat :=
  match read_csv content with
  | Except.ok t => t.rows.length
  | Except.error _ => 0

/-- Helper: what a successful `read_csv` returns — the schema fixed from
the first block and *all* the member's rows. -/
theorem read_csv_ok (content : CsvContent) (t : Table)
    (h : read_csv content = Except.ok t) :
    t = { schema := inferSchema content.header (content.blocks.headD [])
          rows := content.blocks.flatten } := by
  simp only [read_csv] at h
  split at h
  · cases h
    rfl
  · cases h

/-- C5 counterexample: the claim that batches are fed incrementally so
that no single member need reside fully in memory is false — even when
every parse window holds at most one row, the reader materialises all of
the member's rows at once before anything is written. -/
theorem C5_counterexample :
    ¬ (∀ content : CsvContent, (∀ b ∈ content.blocks, b.length ≤ 1) →
        materializedRows content ≤ 1) := by
  intro h
  have h2 := h { header := ["a"], blocks := [[["1"]], [["2"]]] } (by decide)
  have h3 : materializedRows { header := ["a"], blocks := [[["1"]], [["2"]]] } = 2 := rfl
  omega

/-- C5 (amended): the reader consumes the member's stream as a finite
sequence of bounded parse windows, but `csv.read_csv` materialises the
entire member — the concatenation of every window — as one in-memory
table, which is then passed whole to the writer; the member's full row
set therefore does reside in memory (the archive as a whole still never
does, members being processed one at a time). -/
theorem C5_member_fully_materialized (cfg : Config) (content : CsvContent)
    (t : Table) (h : read_csv content = Except.ok t) :
    t.rows = content.blocks.flatten ∧
    materializedRows content = (content.blocks.map List.length).sum ∧
    convert_stream_to_parquet cfg content =
      Except.ok (write_table cfg.batch_size t) := by
  have ht := read_csv_ok content t h
  refine ⟨by rw [ht], ?_, ?_⟩
  · unfold materializedRows
    rw [h, ht]
    simp [List.length_flatten]
  · unfold convert_stream_to_parquet
    rw [h]
    rfl

/-- C5 witness: a member split into two one-row windows is returned as a
single two-row table and written whole. -/
theorem C5_witness :
    (Table.mk [("a", CType.int)] [["1"], ["2"]]).rows =
      (CsvContent.mk ["a"] [[["1"]], [["2"]]]).blocks.flatten ∧
    materializedRows (CsvContent.mk ["a"] [[["1"]], [["2"]]]) =
      ((CsvContent.mk ["a"] [[["1"]], [["2"]]]).blocks.map List.length).sum ∧
    convert_stream_to_parquet cfg₀ (CsvContent.mk ["a"] [[["1"]], [["2"]]]) =
      Except.ok (write_table cfg₀.batch_size
        (Table.mk [("a", CType.int)] [["1"], ["2"]])) :=
  C5_member_fully_materialized cfg₀ (CsvContent.mk ["a"] [[["1"]], [["2"]]])
    (Table.mk [("a", CType.int)] [["1"], ["2"]]) rfl

/-! ## C6 — type inference precedence -/

/-- The schema a member's content is parsed against: fixed from the
*first* parse window only. -/
def schemaOf (content : CsvContent) : List (String × CType) :=
  inferSchema content.header (content.blocks.headD [])

/-- C6: column types are inferred from the first batch only with
precedence integer < floating-point < string — `["1","2","3"]` is
integer, `["1","2.5","3"]` floating-point, `["1","x","3"]` string, an
all-empty column is null-only — empty fields do not affect the inferred
type, and the schema of a parsed member ignores every block after the
first. -/
theorem C6_type_inference :
    inferType ["1", "2", "3"] = CType.int ∧
    inferType ["1", "2.5", "3"] = CType.float ∧
    inferType ["1", "x", "3"] = CType.str ∧
    inferType ["", "", ""] = CType.nullOnly ∧
    (∀ vs : List String, inferType ("" :: vs) = inferType vs) ∧
    (∀ (header : List String) (b : List Row) (r₁ r₂ : List (List Row)),
      schemaOf { header := header, blocks := b :: r₁ } =
        schemaOf { header := header, blocks := b :: r₂ }) ∧
    (∀ (content : CsvContent) (t : Table),
      read_csv content = Except.ok t → t.schema = schemaOf content) := by
  refine ⟨by decide, by decide, by decide, by decide, ?_, ?_, ?_⟩
  · intro vs
    simp [inferType, List.filter_cons]
  · intro header b r₁ r₂
    rfl
  · intro content t h
    rw [read_csv_ok content t h]
    rfl

/-- C6 witness: the schema fixed for `contentA` comes from its first
window, and a leading empty value leaves `["1"]`'s inferred type
unchanged. -/
theorem C6_witness :
    (Table.mk [("a", CType.int), ("b", CType.float)] [["1", "2.5"], ["2", "3"]]).schema =
      schemaOf contentA ∧
    inferType ["", "1"] = inferType ["1"] := by
  refine ⟨?_, C6_type_inference.2.2.2.2.1 ["1"]⟩
  exact C6_type_inference.2.2.2.2.2.2 contentA
    (Table.mk [("a", CType.int), ("b", CType.float)] [["1", "2.5"], ["2", "3"]]) rfl

/-! ## C7 — row-count conservation -/

/-- C7: for every member conversion that succeeds, the sum of the row
counts of the committed file's row-group segments equals the number of
data rows read from the member (the header is not a data row), and the
file carries, in order, exactly the schema fixed from the first batch;
the file is finalized. -/
theorem C7_row_count_conservation (cfg : Config) (content : CsvContent)
    (f : ParquetFile)
    (h : convert_stream_to_parquet cfg content = Except.ok f) :
    (f.groups.map List.length).sum = content.blocks.flatten.length ∧
    f.schema = inferSchema content.header (content.blocks.headD []) ∧
    f.finalized = true := by
  unfold convert_stream_to_parquet at h
  cases hr : read_csv content with
  | error e => rw [hr] at h; cases h
  | ok t =>
      rw [hr] at h
      cases h
      have ht := read_csv_ok content t hr
      refine ⟨?_, ?_, rfl⟩
      · rw [write_table, chunkList_sum_lengths, ht]
      · rw [write_table, ht]

/-- C7 witness: a three-row member written with `row_group_size = 2`
commits segments of 2 and 1 rows — summing to 3 — under the first-batch
schema. -/
theorem C7_witness :
    ((write_table 2 (Table.mk [("a", CType.int)] [["1"], ["2"], ["3"]])).groups.map
        List.length).sum =
      (CsvContent.mk ["a"] [[["1"], ["2"], ["3"]]]).blocks.flatten.length ∧
    (write_table 2 (Table.mk [("a", CType.int)] [["1"], ["2"], ["3"]])).schema =
      inferSchema (CsvContent.mk ["a"] [[["1"], ["2"], ["3"]]]).header
        ((CsvContent.mk ["a"] [[["1"], ["2"], ["3"]]]).blocks.headD []) ∧
    (write_table 2 (Table.mk [("a", CType.int)] [["1"], ["2"], ["3"]])).finalized = true :=
  C7_row_count_conservation cfg₀ (CsvContent.mk ["a"] [[["1"], ["2"], ["3"]]])
    (write_table 2 (Table.mk [("a", CType.int)] [["1"], ["2"], ["3"]])) rfl

/-! ## C10 — coupled reader window and row-group size -/

/-- `pyarrow.csv.ReadOptions` as configured by the source. -/
structure ReadOptions where
  block_size : Nat
  deriving DecidableEq, Repr

/-- The arguments the source passes to `pyarrow.parquet.write_table`. -/
structure WriteArgs where
  compression : String
  row_group_size : Nat
  use_dictionary : Bool
  write_statistics : Bool
  deriving DecidableEq, Repr

/-- `csv.ReadOptions(block_size=batch_size)` in `convert_stream_to_parquet`
(untar.py lines 135–137). -/
def stream_read_options (batch_size : Nat) : ReadOptions :=
  { block_size := batch_size }

/-- The `pq.write_table` arguments in `convert_stream_to_parquet`
(untar.py lines 153–160). -/
def stream_write_args (compression : String) (batch_size : Nat) : WriteArgs :=
  { compression := compression
    row_group_size := batch_size
    use_dictionary := true
    write_statistics := true }

/-- `csv.ReadOptions(block_size=batch_size)` in `convert_csv_to_parquet`
(untar.py lines 94–96, extract-to-temp mode). -/
def csv_read_options (batch_size : Nat) : ReadOptions :=
  { block_size := batch_size }

/-- The `pq.write_table` arguments in `convert_csv_to_parquet`
(untar.py lines 113–120). -/
def csv_write_args (compression : String) (batch_size : Nat) : WriteArgs :=
  { compression := compression
    row_group_size := batch_size
    use_dictionary := true
    write_statistics := true }

/-- The default of `batch_size` in `tar_csv_to_parquet`
(untar.py line 13). -/
def default_batch_size : Nat := 1048576

/-- C10: in both conversion modes the single `batch_size` parameter is
passed unchanged as the CSV reader's byte-window `block_size` and as the
Parquet writer's row-count `row_group_size`, so the two limits are
always numerically equal and cannot be configured independently; the
shared default is 1,048,576. -/
theorem C10_coupled_block_and_row_group_size (batch_size : Nat)
    (compression : String) :
    (stream_read_options batch_size).block_size =
      (stream_write_args compression batch_size).row_group_size ∧
    (csv_read_options batch_size).block_size =
      (csv_write_args compression batch_size).row_group_size ∧
    (stream_read_options batch_size).block_size = batch_size ∧
    (csv_read_options batch_size).block_size = batch_size ∧
    default_batch_size = 1048576 :=
  ⟨rfl, rfl, rfl, rfl, rfl⟩

end Untar
